import Mathlib

/-!
Shallow embedding of the OTA update engine of `src/lib/edgehog_device/ota.c`
(edgehog-zephyr-device).  Pure control flow is translated function by
function; calls into subsystems whose sources are not part of this tree
(settings backend, HTTP client, mcuboot) are modelled as environment-chosen
outcomes, and every externally visible call is recorded as an `Action` in a
trace so that ordering and emission properties can be stated.
-/

namespace EdgehogOta

/-- `ota_state_t`: the OTA machine is in idle state (`OTA_STATE_IDLE = 1`). -/
def OTA_STATE_IDLE : Nat := 1

/-- `ota_state_t`: the OTA machine is in progress state (`= 2`). -/
def OTA_STATE_IN_PROGRESS : Nat := 2

/-- `ota_state_t`: the OTA machine is in reboot state (`= 3`). -/
def OTA_STATE_REBOOT : Nat := 3

/-- `#define MAX_OTA_RETRY 5` -/
def MAX_OTA_RETRY : Nat := 5

/-- `#define OTA_PROGRESS_PERC 100` -/
def OTA_PROGRESS_PERC : Nat := 100

/-- `#define OTA_PROGRESS_PERC_ROUNDING_STEP 10` -/
def OTA_PROGRESS_PERC_ROUNDING_STEP : Nat := 10

/-- `#define OTA_ATTEMPS_DELAY_MS 2000` -/
def OTA_ATTEMPS_DELAY_MS : Nat := 2000

/-- Length of an Astarte UUID string (36 characters). -/
def ASTARTE_UUID_STR_LEN : Nat := 36

/-- The `edgehog_result_t` values that appear in `ota.c`. -/
inductive EdgehogResult where
  | ok
  | internalError
  | outOfMemory
  | threadCreateError
  | networkError
  | httpRequestError
  | settingsInitFail
  | settingsSaveFail
  | settingsLoadFail
  | settingsDeleteFail
  | otaInvalidRequest
  | otaAlreadyInProgress
  | otaInvalidImage
  | otaSystemRollback
  | otaCanceled
  | otaInternalError
  | otaEraseSecondSlotError
  | otaInitFlashError
  | otaWriteFlashError
  | otaSwapFail
  deriving DecidableEq, Repr

/-- `ota_event_t`: the event codes streamed to the server. -/
inductive OtaEvent where
  | acknowledged
  | downloading
  | deploying
  | deployed
  | rebooting
  | success
  | error
  | failure
  deriving DecidableEq, Repr

/-- The `status` string chosen by the first `switch` of `pub_ota_event`. -/
def ota_status_string : OtaEvent → String
  | OtaEvent.acknowledged => "Acknowledged"
  | OtaEvent.downloading => "Downloading"
  | OtaEvent.deploying => "Deploying"
  | OtaEvent.deployed => "Deployed"
  | OtaEvent.rebooting => "Rebooting"
  | OtaEvent.success => "Success"
  | OtaEvent.failure => "Failure"
  | OtaEvent.error => "Error"

/-- The `status_code` string chosen by the second `switch` of `pub_ota_event`;
the default arm maps every remaining result to `"InternalError"`. -/
def status_code_string : EdgehogResult → String
  | EdgehogResult.ok => ""
  | EdgehogResult.otaInvalidRequest => "InvalidRequest"
  | EdgehogResult.otaAlreadyInProgress => "UpdateAlreadyInProgress"
  | EdgehogResult.networkError => "ErrorNetwork"
  | EdgehogResult.settingsInitFail => "IOError"
  | EdgehogResult.settingsSaveFail => "IOError"
  | EdgehogResult.settingsLoadFail => "IOError"
  | EdgehogResult.settingsDeleteFail => "IOError"
  | EdgehogResult.otaInvalidImage => "InvalidBaseImage"
  | EdgehogResult.otaSystemRollback => "SystemRollback"
  | EdgehogResult.otaCanceled => "Canceled"
  | _ => "InternalError"

/-- Externally visible calls made by `ota.c`, recorded in execution order. -/
inductive Action where
  | pubEvent (uuid status : String) (progress : Nat) (statusCode message : String)
  | settingsSaveState (v : Nat)
  | settingsSaveReqId (uuid : String)
  | settingsDeleteReqId
  | eraseSecondary
  | flashInit
  | flashWriteAttempt (size : Nat)
  | abortSocket
  | sleepMs (ms : Nat)
  | readBankHeader
  | requestUpgrade
  | clearRunBit
  | rebootWarm
  deriving DecidableEq, Repr

/-- `pub_ota_event(astarte_device, uuid, event, progress, error, message)`:
streams one aggregated OTAEvent object, with the status and statusCode
strings produced by the two switches of the source function. -/
def pub_ota_event (uuid : String) (event : OtaEvent) (progress : Nat)
    (error : EdgehogResult) (message : String) : Action :=
  Action.pubEvent uuid (ota_status_string event) progress (status_code_string error) message

/-- The OTA worker state (`ota_thread_data_t`): the atomic run bit
(`OTA_STATE_RUN_BIT`), the flash context byte counter
(`flash_img_bytes_written(flash_ctx)`), `image_size`, `download_size`,
`last_perc_sent` and `ota_request.uuid`.  `edgehog_ota_event_update`
zeroes the whole structure before the worker starts. -/
structure OtaThreadData where
  runBit : Bool
  flashBytes : Nat
  imageSize : Nat
  downloadSize : Nat
  lastPercSent : Nat
  uuid : String
  deriving DecidableEq, Repr

/-- One `http_download_chunk_t` delivered to the sink: `chunk_size`,
`download_size` (the total size from Content-Length) and `last_chunk`. -/
structure Chunk where
  chunkSize : Nat
  totalSize : Nat
  lastChunk : Bool
  deriving DecidableEq, Repr

/-- One invocation of the sink, together with the environment around it:
whether a concurrent Cancel cleared the run bit before the callback ran,
and whether `flash_img_buffered_write` succeeds. -/
structure ChunkStep where
  cancelBefore : Bool
  chunk : Chunk
  flashWriteOk : Bool
  deriving DecidableEq, Repr

/-- Output of one sink invocation: new worker state, recorded actions,
and the `edgehog_result_t` returned to the HTTP downloader. -/
structure SinkOut where
  st : OtaThreadData
  tr : List Action
  res : EdgehogResult
  deriving DecidableEq, Repr

/-- `http_download_payload_cbk`: the HTTP download sink.  If the run bit is
clear it aborts the socket and returns OK; otherwise it writes the chunk to
flash (recording the attempt; a failed write aborts with
`OTA_WRITE_FLASH_ERROR`), updates `image_size` and `download_size`, and
emits a `Downloading` event whenever the percentage rounded down to the
nearest 10 differs from `last_perc_sent`.  `flash_img_bytes_written` is
modelled as the cumulative count of successfully written chunk bytes. -/
def http_download_payload_cbk (st0 : OtaThreadData) (cs : ChunkStep) : SinkOut :=
  let st := if cs.cancelBefore then { st0 with runBit := false } else st0
  if st.runBit = false then
    { st := st, tr := [Action.abortSocket], res := EdgehogResult.ok }
  else if cs.flashWriteOk = false then
    { st := st, tr := [Action.flashWriteAttempt cs.chunk.chunkSize, Action.abortSocket],
      res := EdgehogResult.otaWriteFlashError }
  else
    let written := st.flashBytes + cs.chunk.chunkSize
    let st1 :=
      { st with
        flashBytes := written
        imageSize := cs.chunk.totalSize
        downloadSize := written }
    let read_perc := OTA_PROGRESS_PERC * written / cs.chunk.totalSize
    let rounded := read_perc - read_perc % OTA_PROGRESS_PERC_ROUNDING_STEP
    if rounded ≠ st1.lastPercSent then
      { st := { st1 with lastPercSent := rounded },
        tr := [Action.flashWriteAttempt cs.chunk.chunkSize,
               pub_ota_event st1.uuid OtaEvent.downloading rounded EdgehogResult.ok ""],
        res := EdgehogResult.ok }
    else
      { st := st1, tr := [Action.flashWriteAttempt cs.chunk.chunkSize],
        res := EdgehogResult.ok }

/-- Output of a whole download: final worker state and recorded actions. -/
structure RunOut where
  st : OtaThreadData
  tr : List Action
  deriving DecidableEq, Repr

/-- The chunk delivery loop of `edgehog_http_download`: feeds each chunk to
the sink; delivery stops as soon as the sink returns a non-OK result. -/
def run_download : OtaThreadData → List ChunkStep → RunOut
  | st, [] => { st := st, tr := [] }
  | st, cs :: rest =>
    let out := http_download_payload_cbk st cs
    if out.res = EdgehogResult.ok then
      let out2 := run_download out.st rest
      { st := out2.st, tr := out.tr ++ out2.tr }
    else
      { st := out.st, tr := out.tr }

/-- Environment of one `perform_ota_attempt`: the chunks the HTTP client
delivers to the sink, the result `edgehog_http_download` itself returns
(`http.c` is an external collaborator here), and whether a concurrent
Cancel cleared the run bit between the download returning and the
`atomic_test_bit` check that follows it. -/
structure AttemptEnv where
  steps : List ChunkStep
  httpResult : EdgehogResult
  cancelAfterDownload : Bool

/-- The worker state at the `atomic_test_bit` check of `perform_ota_attempt`:
the state left by the download, with the run bit cleared when a concurrent
Cancel arrived between the download returning and the check. -/
def attempt_post_state (st : OtaThreadData) (env : AttemptEnv) : OtaThreadData :=
  if env.cancelAfterDownload then { (run_download st env.steps).st with runBit := false }
  else (run_download st env.steps).st

/-- `perform_ota_attempt`: runs the HTTP download, then decides the
attempt result exactly in source order: cleared run bit first
(`OTA_CANCELED`), then a failed download, then
`download_size <= 0 || download_size != image_size`
(`NETWORK_ERROR`), else OK.  `download_size` is re-read from
`flash_img_bytes_written` before the size comparison, as in the source. -/
def perform_ota_attempt (st : OtaThreadData) (env : AttemptEnv) : SinkOut :=
  let dl := run_download st env.steps
  let st1 := attempt_post_state st env
  if st1.runBit = false then
    { st := st1, tr := dl.tr, res := EdgehogResult.otaCanceled }
  else if env.httpResult ≠ EdgehogResult.ok then
    { st := st1, tr := dl.tr, res := env.httpResult }
  else
    let st2 : OtaThreadData := { st1 with downloadSize := st1.flashBytes }
    if st2.downloadSize = 0 ∨ st2.downloadSize ≠ st2.imageSize then
      { st := st2, tr := dl.tr, res := EdgehogResult.networkError }
    else
      { st := st2, tr := dl.tr, res := EdgehogResult.ok }

/-- Output of the retry loop / `perform_ota`: final state, trace, the
`edgehog_result_t` returned, and the list of per-attempt results actually
produced (bookkeeping used to state properties of the loop). -/
structure LoopOut where
  st : OtaThreadData
  tr : List Action
  res : EdgehogResult
  results : List EdgehogResult

/-- The `for (update_attempts = 0; update_attempts < MAX_OTA_RETRY; ...)`
loop of `perform_ota`.  Each iteration publishes `Downloading` with
progress 0, runs one attempt, breaks on OK or `OTA_CANCELED`, and
otherwise sleeps `update_attempts * OTA_ATTEMPS_DELAY_MS` and publishes an
`Error` event carrying the attempt result.  `fuel` is the number of
remaining iterations and `i` the current value of `update_attempts`. -/
def ota_update_loop (envs : Nat → AttemptEnv) :
    OtaThreadData → Nat → Nat → EdgehogResult → LoopOut
  | st, _, 0, prev => { st := st, tr := [], res := prev, results := [] }
  | st, i, fuel + 1, _prev =>
    let head := pub_ota_event st.uuid OtaEvent.downloading 0 EdgehogResult.ok ""
    let att := perform_ota_attempt st (envs i)
    if att.res = EdgehogResult.ok ∨ att.res = EdgehogResult.otaCanceled then
      { st := att.st, tr := head :: att.tr, res := att.res, results := [att.res] }
    else
      let rest := ota_update_loop envs att.st (i + 1) fuel att.res
      { st := rest.st
        tr := head :: att.tr
          ++ Action.sleepMs (i * OTA_ATTEMPS_DELAY_MS)
          :: pub_ota_event att.st.uuid OtaEvent.error 0 att.res "" :: rest.tr
        res := rest.res
        results := att.res :: rest.results }

/-- Environment of `perform_ota`: outcomes of `boot_erase_img_bank`,
`flash_img_init`, the `req_id` settings save, and the per-attempt
environments. -/
structure PerformEnv where
  eraseOk : Bool
  flashInitOk : Bool
  saveReqIdResult : EdgehogResult
  attempts : Nat → AttemptEnv

/-- `perform_ota`: erases the secondary slot and initializes the flash
context once (a failure returns `ERASE_SECOND_SLOT_ERROR` resp.
`INIT_FLASH_ERROR`), persists `req_id`, then runs the attempt loop.
`flash_img_init` resets the flash context byte counter. -/
def perform_ota (st : OtaThreadData) (env : PerformEnv) : LoopOut :=
  if env.eraseOk = false then
    { st := st, tr := [Action.eraseSecondary],
      res := EdgehogResult.otaEraseSecondSlotError, results := [] }
  else if env.flashInitOk = false then
    { st := st, tr := [Action.eraseSecondary, Action.flashInit],
      res := EdgehogResult.otaInitFlashError, results := [] }
  else
    let st1 := { st with flashBytes := 0 }
    let pre := [Action.eraseSecondary, Action.flashInit, Action.settingsSaveReqId st1.uuid]
    if env.saveReqIdResult ≠ EdgehogResult.ok then
      { st := st1, tr := pre, res := env.saveReqIdResult, results := [] }
    else
      let loopOut := ota_update_loop env.attempts st1 0 MAX_OTA_RETRY env.saveReqIdResult
      { st := loopOut.st, tr := pre ++ loopOut.tr, res := loopOut.res,
        results := loopOut.results }

/-- Environment of the worker thread: outcomes of `edgehog_settings_init`,
the whole `perform_ota` phase, `boot_read_bank_header` and
`boot_request_upgrade`. -/
structure ThreadEnv where
  settingsInitOk : Bool
  perform : PerformEnv
  readHeaderOk : Bool
  requestUpgradeOk : Bool

/-- The `selfdestruct:` epilogue of the worker: clear the run bit, delete
`req_id`, persist `state = IDLE`. -/
def ota_selfdestruct_actions : List Action :=
  [Action.clearRunBit, Action.settingsDeleteReqId, Action.settingsSaveState OTA_STATE_IDLE]

/-- `ota_thread_entry_point`: acknowledge, init settings, persist
`state = IN_PROGRESS`, run `perform_ota`; on success publish `Deploying`,
persist `state = REBOOT`, read the secondary bank header, request the
upgrade test, publish `Deployed` and `Rebooting`, sleep 5 s and reboot
(the reboot does not return, so the `selfdestruct:` epilogue is skipped);
on failure publish `Failure` with the loop result, persist `state = IDLE`
and fall through to the epilogue. -/
def ota_thread_entry_point (st : OtaThreadData) (env : ThreadEnv) : List Action :=
  let ack := pub_ota_event st.uuid OtaEvent.acknowledged 0 EdgehogResult.ok ""
  if env.settingsInitOk = false then
    ack :: pub_ota_event st.uuid OtaEvent.failure 0 EdgehogResult.settingsInitFail ""
      :: ota_selfdestruct_actions
  else
    let pre := [ack, Action.settingsSaveState OTA_STATE_IN_PROGRESS]
    let out := perform_ota st env.perform
    if out.res = EdgehogResult.ok then
      let t2 := pre ++ out.tr
        ++ [pub_ota_event st.uuid OtaEvent.deploying 0 EdgehogResult.ok "",
            Action.settingsSaveState OTA_STATE_REBOOT, Action.readBankHeader]
      if env.readHeaderOk = false then
        t2 ++ pub_ota_event st.uuid OtaEvent.failure 0 EdgehogResult.otaInternalError ""
          :: ota_selfdestruct_actions
      else if env.requestUpgradeOk = false then
        t2 ++ Action.requestUpgrade
          :: pub_ota_event st.uuid OtaEvent.failure 0 EdgehogResult.otaInternalError ""
          :: ota_selfdestruct_actions
      else
        t2 ++ [Action.requestUpgrade,
               pub_ota_event st.uuid OtaEvent.deployed 0 EdgehogResult.ok "",
               pub_ota_event st.uuid OtaEvent.rebooting 0 EdgehogResult.ok "",
               Action.sleepMs 5000, Action.rebootWarm]
    else
      pre ++ out.tr
        ++ pub_ota_event st.uuid OtaEvent.failure 0 out.res ""
        :: Action.settingsSaveState OTA_STATE_IDLE :: ota_selfdestruct_actions

/-- Environment of `edgehog_ota_event_update`: the current run bit and the
outcomes of the two `calloc` calls and of `k_thread_create`. -/
structure UpdateEnv where
  runBit : Bool
  callocUuidOk : Bool
  callocUrlOk : Bool
  threadCreateOk : Bool

/-- Output of a command handler: the returned `edgehog_result_t`, the run
bit after return, and the actions recorded while handling the command. -/
structure HandlerOut where
  res : EdgehogResult
  runBit : Bool
  tr : List Action
  deriving DecidableEq, Repr

/-- `edgehog_ota_event_update`: rejects when the run bit is already set;
duplicates `uuid` and `url` (a failed `calloc` jumps to `fail:`, which
only frees the copies — the run bit is not yet set there and no event is
published); sets the run bit with `atomic_test_and_set_bit` (which cannot
observe a set bit on this path); spawns the worker, and on a spawn
failure publishes `Failure / InternalError` and jumps to `fail:` — which
frees the copies but does not clear the run bit. -/
def edgehog_ota_event_update (uuid _url : String) (env : UpdateEnv) : HandlerOut :=
  if env.runBit then
    { res := EdgehogResult.otaAlreadyInProgress, runBit := true,
      tr := [pub_ota_event uuid OtaEvent.failure 0 EdgehogResult.otaAlreadyInProgress ""] }
  else if env.callocUuidOk = false then
    { res := EdgehogResult.outOfMemory, runBit := false, tr := [] }
  else if env.callocUrlOk = false then
    { res := EdgehogResult.outOfMemory, runBit := false, tr := [] }
  else if env.threadCreateOk = false then
    { res := EdgehogResult.threadCreateError, runBit := true,
      tr := [pub_ota_event uuid OtaEvent.failure 0 EdgehogResult.otaInternalError ""] }
  else
    { res := EdgehogResult.ok, runBit := true, tr := [] }

/-- `ota_settings_t` as filled in by `ota_settings_loader`. -/
structure OtaSettings where
  uuid : String
  ota_state : Nat
  deriving DecidableEq, Repr

/-- Environment of `edgehog_ota_event_cancel`: run bit, settings-init
outcome and settings-load outcome (`none` models a failed load). -/
structure CancelEnv where
  runBit : Bool
  settingsInitOk : Bool
  loadResult : Option OtaSettings

/-- `edgehog_ota_event_cancel`: rejects when no update is running; then
initializes and loads settings; requires the loaded `req_id` to be a
36-character string; and finally clears the run bit with
`atomic_test_and_clear_bit` and returns OK.  The `request_uuid` argument
is only echoed into events, never compared with the in-flight uuid. -/
def edgehog_ota_event_cancel (request_uuid : String) (env : CancelEnv) : HandlerOut :=
  if env.runBit = false then
    { res := EdgehogResult.otaInvalidRequest, runBit := false,
      tr := [pub_ota_event request_uuid OtaEvent.failure 0 EdgehogResult.otaInvalidRequest
        "Unable to cancel OTA update request, no OTA update running."] }
  else if env.settingsInitOk = false then
    { res := EdgehogResult.otaInternalError, runBit := true,
      tr := [pub_ota_event request_uuid OtaEvent.failure 0 EdgehogResult.otaInternalError
        "Unable to cancel OTA update request, Edgeghog Settings init error."] }
  else
    match env.loadResult with
    | Option.none =>
      { res := EdgehogResult.otaInternalError, runBit := true,
        tr := [pub_ota_event request_uuid OtaEvent.failure 0 EdgehogResult.otaInternalError
          "Unable to cancel OTA update request, Edgeghog Settings load error."] }
    | Option.some s =>
      if s.uuid.length ≠ ASTARTE_UUID_STR_LEN then
        { res := EdgehogResult.otaInternalError, runBit := true,
          tr := [pub_ota_event request_uuid OtaEvent.failure 0 EdgehogResult.otaInternalError
            "Unable to cancel OTA update request, Edgehog Settings error."] }
      else
        { res := EdgehogResult.ok, runBit := false, tr := [] }

/-- Environment of `edgehog_ota_init`: whether the device handle is null,
the settings-load outcome, the mcuboot swap type, whether the running
image is already confirmed, and the return of `boot_write_img_confirmed`
(negative means failure). -/
structure InitEnv where
  devNull : Bool
  loadResult : Option OtaSettings
  swapTypeIsNone : Bool
  imgConfirmed : Bool
  writeConfirmedRet : Int

/-- `edgehog_ota_init`: the boot-time reconciler.  A null device or a
failed settings load returns without touching the persisted record; every
other branch falls through to `end:`, which deletes `req_id` and persists
`state = IDLE`.  With a 36-character `req_id`, `state = REBOOT`, swap type
NONE, an unconfirmed image and a successful `boot_write_img_confirmed`, a
`Success` event is published for the loaded uuid. -/
def edgehog_ota_init (env : InitEnv) : List Action :=
  if env.devNull then []
  else
    match env.loadResult with
    | Option.none => []
    | Option.some s =>
      let endActions := [Action.settingsDeleteReqId, Action.settingsSaveState OTA_STATE_IDLE]
      if s.uuid.length ≠ ASTARTE_UUID_STR_LEN then
        endActions
      else if s.ota_state ≠ OTA_STATE_REBOOT then
        pub_ota_event s.uuid OtaEvent.failure 0 EdgehogResult.otaInternalError "" :: endActions
      else if env.swapTypeIsNone = false then
        pub_ota_event s.uuid OtaEvent.failure 0 EdgehogResult.otaSwapFail "" :: endActions
      else if env.imgConfirmed then
        pub_ota_event s.uuid OtaEvent.failure 0 EdgehogResult.otaSwapFail "" :: endActions
      else if env.writeConfirmedRet < 0 then
        pub_ota_event s.uuid OtaEvent.failure 0 EdgehogResult.otaInternalError "" :: endActions
      else
        pub_ota_event s.uuid OtaEvent.success 0 EdgehogResult.ok "" :: endActions

/-- The `statusProgress` values of the `Downloading` events of a trace,
in emission order. -/
def downloading_values (tr : List Action) : List Nat :=
  tr.filterMap fun a =>
    match a with
    | Action.pubEvent _ s p _ _ => if s = "Downloading" then Option.some p else Option.none
    | _ => Option.none

/-- The trace of one whole download attempt as the loop sees it: the
`Downloading (progress = 0)` header published at the top of the loop
iteration followed by the sink actions of the attempt. -/
def attempt_trace (st : OtaThreadData) (env : AttemptEnv) : List Action :=
  pub_ota_event st.uuid OtaEvent.downloading 0 EdgehogResult.ok ""
    :: (perform_ota_attempt st env).tr

/-- `read_perc_rounded` as a function of the byte counter: the percentage
of `bytes` out of `total`, rounded down to the nearest 10. -/
def rounded_percent (total bytes : Nat) : Nat :=
  OTA_PROGRESS_PERC * bytes / total
    - OTA_PROGRESS_PERC * bytes / total % OTA_PROGRESS_PERC_ROUNDING_STEP

/-- An action belonging to the retry machinery of the attempt loop: a
back-off sleep or an `Error` event. -/
def is_retry_action (a : Action) : Bool :=
  match a with
  | Action.sleepMs _ => true
  | Action.pubEvent _ s _ _ _ => s = "Error"
  | _ => false

/-- The retry actions the loop is expected to record for the failed
attempt results `rs`, the first of which has index `i`: for each failed
attempt, a sleep of `index * OTA_ATTEMPS_DELAY_MS` followed by an `Error`
event carrying that attempt's status code. -/
def retry_trace (uuid : String) : Nat → List EdgehogResult → List Action
  | _, [] => []
  | i, r :: rest =>
    Action.sleepMs (i * OTA_ATTEMPS_DELAY_MS)
      :: pub_ota_event uuid OtaEvent.error 0 r ""
      :: retry_trace uuid (i + 1) rest

/-- A loop-terminating attempt result: OK or `OTA_CANCELED`. -/
def is_terminal_result (r : EdgehogResult) : Bool :=
  r = EdgehogResult.ok || r = EdgehogResult.otaCanceled

/-- Actions the HTTP sink can record. -/
def is_sink_action (a : Action) : Bool :=
  match a with
  | Action.abortSocket => true
  | Action.flashWriteAttempt _ => true
  | Action.pubEvent _ s _ _ _ => s = "Downloading"
  | _ => false

/-- Actions the attempt loop can record: sink actions, back-off sleeps and
`Downloading` / `Error` events. -/
def is_attempt_loop_action (a : Action) : Bool :=
  match a with
  | Action.abortSocket => true
  | Action.flashWriteAttempt _ => true
  | Action.sleepMs _ => true
  | Action.pubEvent _ s _ _ _ => s = "Downloading" || s = "Error"
  | _ => false

/-- Actions `perform_ota` can record: the one-time erase, flash init and
`req_id` save, plus the attempt-loop actions. -/
def is_perform_action (a : Action) : Bool :=
  match a with
  | Action.eraseSecondary => true
  | Action.flashInit => true
  | Action.settingsSaveReqId _ => true
  | _ => is_attempt_loop_action a

/-- The worker state as zeroed by `edgehog_ota_event_update` (whole
`ota_thread_data_t` memset to 0) with the run bit set and the request
uuid filled in. -/
def fresh_worker_state : OtaThreadData :=
  { runBit := true, flashBytes := 0, imageSize := 0, downloadSize := 0,
    lastPercSent := 0, uuid := "u" }

/-- A successfully written, uncancelled chunk of `c` bytes out of a
`t`-byte image. -/
def plain_chunk_step (c t : Nat) : ChunkStep :=
  { cancelBefore := false,
    chunk := { chunkSize := c, totalSize := t, lastChunk := false },
    flashWriteOk := true }

/-- An attempt whose download fails at the network level before any chunk
is delivered. -/
def failing_attempt : AttemptEnv :=
  { steps := [], httpResult := EdgehogResult.networkError, cancelAfterDownload := false }

/-- An attempt that downloads a 4-byte image in one chunk and succeeds. -/
def small_ok_attempt : AttemptEnv :=
  { steps := [plain_chunk_step 4 4], httpResult := EdgehogResult.ok,
    cancelAfterDownload := false }

/-- A `perform_ota` environment whose first attempt fails with a network
error and whose second attempt succeeds. -/
def two_attempt_env : PerformEnv :=
  { eraseOk := true, flashInitOk := true, saveReqIdResult := EdgehogResult.ok,
    attempts := fun i => if i = 0 then failing_attempt else small_ok_attempt }

/-- An attempt that writes 256 bytes of a 1024-byte image and then fails
at the network level (a reset mid-transfer). -/
def partial_1024_attempt : AttemptEnv :=
  { steps := [plain_chunk_step 256 1024], httpResult := EdgehogResult.networkError,
    cancelAfterDownload := false }

/-- An attempt that downloads a full 1024-byte image in two chunks. -/
def full_1024_attempt : AttemptEnv :=
  { steps := [plain_chunk_step 768 1024, plain_chunk_step 256 1024],
    httpResult := EdgehogResult.ok, cancelAfterDownload := false }

/-- A `perform_ota` environment where the first attempt is interrupted
after 256 of 1024 bytes and the retries re-download the image into the
flash context that was initialized only once. -/
def partial_then_full_env : PerformEnv :=
  { eraseOk := true, flashInitOk := true, saveReqIdResult := EdgehogResult.ok,
    attempts := fun i => if i = 0 then partial_1024_attempt else full_1024_attempt }

lemma http_cbk_uuid (st : OtaThreadData) (cs : ChunkStep) :
    (http_download_payload_cbk st cs).st.uuid = st.uuid := by
  unfold http_download_payload_cbk
  by_cases hc : cs.cancelBefore <;>
    simp only [hc, ite_true, ite_false] <;> (try split_ifs) <;> rfl

lemma http_cbk_runBit (st : OtaThreadData) (cs : ChunkStep) :
    (http_download_payload_cbk st cs).st.runBit = true → st.runBit = true := by
  unfold http_download_payload_cbk
  by_cases hc : cs.cancelBefore <;>
    simp only [hc, ite_true, ite_false] <;> (try split_ifs) <;> simp_all

lemma http_cbk_bytes_le (st : OtaThreadData) (cs : ChunkStep) :
    st.flashBytes ≤ (http_download_payload_cbk st cs).st.flashBytes ∧
      (http_download_payload_cbk st cs).st.flashBytes ≤ st.flashBytes + cs.chunk.chunkSize := by
  unfold http_download_payload_cbk
  by_cases hc : cs.cancelBefore <;>
    simp only [hc, ite_true, ite_false] <;> (try split_ifs) <;> simp

lemma http_cbk_actions (st : OtaThreadData) (cs : ChunkStep) :
    ∀ a ∈ (http_download_payload_cbk st cs).tr, is_sink_action a = true := by
  unfold http_download_payload_cbk
  by_cases hc : cs.cancelBefore <;>
    simp only [hc, ite_true, ite_false] <;> (try split_ifs) <;>
    simp [is_sink_action, pub_ota_event, ota_status_string]

lemma run_download_uuid (steps : List ChunkStep) :
    ∀ st : OtaThreadData, (run_download st steps).st.uuid = st.uuid := by
  induction steps with
  | nil => intro st; rfl
  | cons cs rest ih =>
    intro st
    show (run_download st (cs :: rest)).st.uuid = st.uuid
    unfold run_download
    by_cases h : (http_download_payload_cbk st cs).res = EdgehogResult.ok <;>
      simp only [h, ite_true, ite_false]
    · rw [ih, http_cbk_uuid]
    · exact http_cbk_uuid st cs

lemma run_download_runBit (steps : List ChunkStep) :
    ∀ st : OtaThreadData, (run_download st steps).st.runBit = true → st.runBit = true := by
  induction steps with
  | nil => intro st h; exact h
  | cons cs rest ih =>
    intro st
    show (run_download st (cs :: rest)).st.runBit = true → st.runBit = true
    unfold run_download
    by_cases h : (http_download_payload_cbk st cs).res = EdgehogResult.ok <;>
      simp only [h, ite_true, ite_false]
    · intro hb
      exact http_cbk_runBit st cs (ih _ hb)
    · exact http_cbk_runBit st cs

lemma run_download_bytes_le (steps : List ChunkStep) :
    ∀ st : OtaThreadData,
      st.flashBytes ≤ (run_download st steps).st.flashBytes ∧
        (run_download st steps).st.flashBytes
          ≤ st.flashBytes + (steps.map fun cs => cs.chunk.chunkSize).sum := by
  induction steps with
  | nil => intro st; simp [run_download]
  | cons cs rest ih =>
    intro st
    have hcb := http_cbk_bytes_le st cs
    show _ ∧ (run_download st (cs :: rest)).st.flashBytes ≤ _
    unfold run_download
    by_cases h : (http_download_payload_cbk st cs).res = EdgehogResult.ok <;>
      simp only [h, ite_true, ite_false, List.map_cons, List.sum_cons]
    · have hr := ih (http_download_payload_cbk st cs).st
      exact ⟨le_trans hcb.1 hr.1, by omega⟩
    · exact ⟨hcb.1, by omega⟩

lemma run_download_actions (steps : List ChunkStep) :
    ∀ st : OtaThreadData, ∀ a ∈ (run_download st steps).tr, is_sink_action a = true := by
  induction steps with
  | nil => intro st a ha; simp [run_download] at ha
  | cons cs rest ih =>
    intro st a
    show a ∈ (run_download st (cs :: rest)).tr → _
    unfold run_download
    by_cases h : (http_download_payload_cbk st cs).res = EdgehogResult.ok <;>
      simp only [h, ite_true, ite_false, List.mem_append]
    · rintro (ha | ha)
      · exact http_cbk_actions st cs a ha
      · exact ih _ a ha
    · exact http_cbk_actions st cs a

lemma run_download_cancelled (steps : List ChunkStep) :
    ∀ st : OtaThreadData, st.runBit = false →
      run_download st steps = { st := st, tr := List.replicate steps.length Action.abortSocket } := by
  induction steps with
  | nil => intro st _; rfl
  | cons cs rest ih =>
    intro st hb
    have hcb : http_download_payload_cbk st cs
        = { st := st, tr := [Action.abortSocket], res := EdgehogResult.ok } := by
      unfold http_download_payload_cbk
      by_cases hc : cs.cancelBefore <;> simp only [hc, ite_true, ite_false]
      · have : ({ st with runBit := false } : OtaThreadData) = st := by
          cases st; simp_all
        simp [this]
      · simp [hb]
    show run_download st (cs :: rest) = _
    unfold run_download
    rw [hcb]
    simp [ih st hb, List.replicate_succ]

lemma rounded_percent_mono (T : Nat) {a b : Nat} (h : a ≤ b) :
    rounded_percent T a ≤ rounded_percent T b := by
  unfold rounded_percent OTA_PROGRESS_PERC OTA_PROGRESS_PERC_ROUNDING_STEP
  have hdiv : 100 * a / T ≤ 100 * b / T :=
    Nat.div_le_div_right (Nat.mul_le_mul_left 100 h)
  omega

lemma rounded_percent_mod (T b : Nat) : rounded_percent T b % 10 = 0 := by
  unfold rounded_percent OTA_PROGRESS_PERC OTA_PROGRESS_PERC_ROUNDING_STEP
  omega

lemma rounded_percent_add_total (T b : Nat) :
    rounded_percent T (b + T) ≤ rounded_percent T b + 100 := by
  unfold rounded_percent OTA_PROGRESS_PERC OTA_PROGRESS_PERC_ROUNDING_STEP
  rcases Nat.eq_zero_or_pos T with hT | hT
  · subst hT; simp
  · have h : 100 * (b + T) / T = 100 * b / T + 100 := by
      rw [Nat.mul_add, Nat.add_mul_div_right _ _ hT]
    rw [h]
    omega

lemma http_cbk_cancel_true (st : OtaThreadData) (cs : ChunkStep)
    (hc : cs.cancelBefore = true) :
    http_download_payload_cbk st cs
      = { st := { st with runBit := false }, tr := [Action.abortSocket],
          res := EdgehogResult.ok } := by
  unfold http_download_payload_cbk
  simp [hc]

lemma http_cbk_progress (T : Nat) (st : OtaThreadData) (cs : ChunkStep)
    (hT : cs.chunk.totalSize = T)
    (hJ : st.lastPercSent = rounded_percent T st.flashBytes) :
    (http_download_payload_cbk st cs).st.lastPercSent
        = rounded_percent T (http_download_payload_cbk st cs).st.flashBytes ∧
      (downloading_values (http_download_payload_cbk st cs).tr = [] ∨
        downloading_values (http_download_payload_cbk st cs).tr
            = [rounded_percent T (http_download_payload_cbk st cs).st.flashBytes] ∧
          st.lastPercSent < rounded_percent T (http_download_payload_cbk st cs).st.flashBytes) := by
  subst hT
  by_cases hc : cs.cancelBefore = true
  · rw [http_cbk_cancel_true st cs hc]
    exact ⟨hJ, Or.inl (by simp [downloading_values])⟩
  · unfold http_download_payload_cbk
    rw [if_neg hc]
    by_cases c1 : st.runBit = false
    · rw [if_pos c1]
      exact ⟨hJ, Or.inl (by simp [downloading_values])⟩
    · rw [if_neg c1]
      by_cases c2 : cs.flashWriteOk = false
      · rw [if_pos c2]
        exact ⟨hJ, Or.inl (by simp [downloading_values])⟩
      · rw [if_neg c2]
        dsimp only
        split_ifs with h3
        · refine ⟨by simp [rounded_percent], Or.inr ⟨?_, ?_⟩⟩
          · simp [downloading_values, pub_ota_event, ota_status_string, status_code_string,
              rounded_percent]
          · have hle := rounded_percent_mono cs.chunk.totalSize
              (Nat.le_add_right st.flashBytes cs.chunk.chunkSize)
            simp only [rounded_percent] at hJ hle h3 ⊢
            simp only [OTA_PROGRESS_PERC, OTA_PROGRESS_PERC_ROUNDING_STEP] at hJ hle h3 ⊢
            omega
        · rw [ne_eq, not_not] at h3
          refine ⟨?_, Or.inl (by simp [downloading_values])⟩
          simp only [rounded_percent]
          exact h3.symm

lemma run_download_progress (T : Nat) (steps : List ChunkStep) :
    ∀ st : OtaThreadData,
      (∀ cs ∈ steps, cs.chunk.totalSize = T) →
      st.lastPercSent = rounded_percent T st.flashBytes →
      (run_download st steps).st.lastPercSent
          = rounded_percent T (run_download st steps).st.flashBytes ∧
        List.Chain' (· < ·) (downloading_values (run_download st steps).tr) ∧
        ∀ v ∈ downloading_values (run_download st steps).tr,
          st.lastPercSent < v ∧
            v ≤ rounded_percent T (run_download st steps).st.flashBytes ∧ v % 10 = 0 := by
  induction steps with
  | nil =>
    intro st _ hJ
    exact ⟨hJ, by simp [run_download, downloading_values], by simp [run_download, downloading_values]⟩
  | cons cs rest ih =>
    intro st hT hJ
    have hTcs : cs.chunk.totalSize = T := hT cs (List.mem_cons_self cs rest)
    have hcb := http_cbk_progress T st cs hTcs hJ
    have hbytes := http_cbk_bytes_le st cs
    show (run_download st (cs :: rest)).st.lastPercSent = _ ∧ _
    unfold run_download
    by_cases hres : (http_download_payload_cbk st cs).res = EdgehogResult.ok <;>
      simp only [hres, ite_true, ite_false]
    · have ihr := ih (http_download_payload_cbk st cs).st
        (fun c hc => hT c (List.mem_cons_of_mem cs hc)) hcb.1
      have hrest_bytes := run_download_bytes_le rest (http_download_payload_cbk st cs).st
      have hmono_out : rounded_percent T (http_download_payload_cbk st cs).st.flashBytes
          ≤ rounded_percent T
              (run_download (http_download_payload_cbk st cs).st rest).st.flashBytes :=
        rounded_percent_mono T hrest_bytes.1
      refine ⟨ihr.1, ?_, ?_⟩
      · rw [downloading_values, List.filterMap_append]
        rcases hcb.2 with hnil | ⟨hone, hlt⟩
        · rw [downloading_values] at hnil
          rw [hnil, List.nil_append]
          exact ihr.2.1
        · rw [downloading_values] at hone
          rw [hone, List.singleton_append]
          refine List.chain'_cons'.mpr ⟨?_, ihr.2.1⟩
          intro y hy
          have hmem : y ∈ downloading_values
              (run_download (http_download_payload_cbk st cs).st rest).tr :=
            List.mem_of_mem_head? hy
          have := (ihr.2.2 y hmem).1
          rw [hcb.1] at this
          exact this
      · intro v hv
        rw [downloading_values, List.filterMap_append] at hv
        rcases List.mem_append.mp hv with hvl | hvr
        · rcases hcb.2 with hnil | ⟨hone, hlt⟩
          · rw [downloading_values] at hnil
            rw [hnil] at hvl
            simp at hvl
          · rw [downloading_values] at hone
            rw [hone] at hvl
            simp only [List.mem_singleton] at hvl
            subst hvl
            exact ⟨hlt, hmono_out, rounded_percent_mod T _⟩
        · have hrest := ihr.2.2 v hvr
          refine ⟨lt_of_le_of_lt ?_ hrest.1, hrest.2.1, hrest.2.2⟩
          rw [hJ, hcb.1]
          exact rounded_percent_mono T hbytes.1
    · refine ⟨hcb.1, ?_, ?_⟩
      · rcases hcb.2 with hnil | ⟨hone, _⟩
        · rw [hnil]; exact List.chain'_nil
        · rw [hone]; exact List.chain'_singleton _
      · intro v hv
        rcases hcb.2 with hnil | ⟨hone, hlt⟩
        · rw [hnil] at hv; simp at hv
        · rw [hone] at hv
          simp only [List.mem_singleton] at hv
          subst hv
          exact ⟨hlt, le_refl _, rounded_percent_mod T _⟩

lemma rounded_percent_le_100 (T b : Nat) (h : b ≤ T) :
    rounded_percent T b ≤ 100 := by
  unfold rounded_percent OTA_PROGRESS_PERC OTA_PROGRESS_PERC_ROUNDING_STEP
  rcases Nat.eq_zero_or_pos T with hT | hT
  · subst hT; simp
  · have : 100 * b / T ≤ 100 := by
      have h1 : 100 * b ≤ 100 * T := Nat.mul_le_mul_left 100 h
      calc 100 * b / T ≤ 100 * T / T := Nat.div_le_div_right h1
        _ = 100 := Nat.mul_div_cancel 100 hT
    omega

lemma perform_ota_attempt_tr (st : OtaThreadData) (env : AttemptEnv) :
    (perform_ota_attempt st env).tr = (run_download st env.steps).tr := by
  unfold perform_ota_attempt
  dsimp only
  split_ifs <;> rfl

lemma attempt_post_state_uuid (st : OtaThreadData) (env : AttemptEnv) :
    (attempt_post_state st env).uuid = st.uuid := by
  unfold attempt_post_state
  split_ifs <;> simp [run_download_uuid]

lemma attempt_post_state_runBit_false (st : OtaThreadData) (env : AttemptEnv)
    (h : st.runBit = false) : (attempt_post_state st env).runBit = false := by
  unfold attempt_post_state
  split_ifs with hca
  · rfl
  · cases hb : (run_download st env.steps).st.runBit
    · rfl
    · exact absurd (run_download_runBit env.steps st hb) (by simp [h])

lemma perform_ota_attempt_uuid (st : OtaThreadData) (env : AttemptEnv) :
    (perform_ota_attempt st env).st.uuid = st.uuid := by
  unfold perform_ota_attempt
  dsimp only
  split_ifs <;> simp [attempt_post_state_uuid]

lemma perform_ota_attempt_canceled (st : OtaThreadData) (env : AttemptEnv)
    (h : st.runBit = false) :
    (perform_ota_attempt st env).res = EdgehogResult.otaCanceled := by
  unfold perform_ota_attempt
  dsimp only
  rw [if_pos (attempt_post_state_runBit_false st env h)]

lemma perform_ota_attempt_cancelAfter (st : OtaThreadData) (env : AttemptEnv)
    (h : env.cancelAfterDownload = true) :
    (perform_ota_attempt st env).res = EdgehogResult.otaCanceled := by
  have hb : (attempt_post_state st env).runBit = false := by
    unfold attempt_post_state
    rw [if_pos h]
  unfold perform_ota_attempt
  dsimp only
  rw [if_pos hb]

lemma sink_action_is_loop_action (a : Action) (h : is_sink_action a = true) :
    is_attempt_loop_action a = true := by
  cases a <;> simp_all [is_sink_action, is_attempt_loop_action]

lemma sink_action_not_retry (a : Action) (h : is_sink_action a = true) :
    is_retry_action a = false := by
  cases a <;> simp_all [is_sink_action, is_retry_action]

lemma attempt_filter_retry (st : OtaThreadData) (env : AttemptEnv) :
    (perform_ota_attempt st env).tr.filter is_retry_action = [] := by
  rw [perform_ota_attempt_tr]
  rw [List.filter_eq_nil_iff]
  intro a ha
  rw [sink_action_not_retry a (run_download_actions env.steps st a ha)]
  simp

lemma ota_update_loop_uuid (envs : Nat → AttemptEnv) :
    ∀ (fuel : Nat) (st : OtaThreadData) (i : Nat) (prev : EdgehogResult),
      (ota_update_loop envs st i fuel prev).st.uuid = st.uuid := by
  intro fuel
  induction fuel with
  | zero => intro st i prev; rfl
  | succ f ih =>
    intro st i prev
    show (ota_update_loop envs st i (f + 1) prev).st.uuid = st.uuid
    unfold ota_update_loop
    dsimp only
    split_ifs with h
    · exact perform_ota_attempt_uuid st (envs i)
    · rw [ih]
      exact perform_ota_attempt_uuid st (envs i)

lemma ota_update_loop_results_length (envs : Nat → AttemptEnv) :
    ∀ (fuel : Nat) (st : OtaThreadData) (i : Nat) (prev : EdgehogResult),
      (ota_update_loop envs st i fuel prev).results.length ≤ fuel := by
  intro fuel
  induction fuel with
  | zero => intro st i prev; simp [ota_update_loop]
  | succ f ih =>
    intro st i prev
    show (ota_update_loop envs st i (f + 1) prev).results.length ≤ f + 1
    unfold ota_update_loop
    dsimp only
    split_ifs with h
    · simp
    · simpa using ih (perform_ota_attempt st (envs i)).st (i + 1) _

lemma ota_update_loop_results_nonempty (envs : Nat → AttemptEnv)
    (fuel : Nat) (st : OtaThreadData) (i : Nat) (prev : EdgehogResult) (h : 0 < fuel) :
    (ota_update_loop envs st i fuel prev).results ≠ [] := by
  cases fuel with
  | zero => omega
  | succ f =>
    show (ota_update_loop envs st i (f + 1) prev).results ≠ []
    unfold ota_update_loop
    dsimp only
    split_ifs <;> simp

lemma ota_update_loop_res_getLastD (envs : Nat → AttemptEnv) :
    ∀ (fuel : Nat) (st : OtaThreadData) (i : Nat) (prev : EdgehogResult),
      (ota_update_loop envs st i fuel prev).res
        = (ota_update_loop envs st i fuel prev).results.getLastD prev := by
  intro fuel
  induction fuel with
  | zero => intro st i prev; rfl
  | succ f ih =>
    intro st i prev
    show (ota_update_loop envs st i (f + 1) prev).res = _
    unfold ota_update_loop
    dsimp only
    split_ifs with h
    · simp
    · rw [ih]
      rcases hrest : (ota_update_loop envs (perform_ota_attempt st (envs i)).st (i + 1) f
          (perform_ota_attempt st (envs i)).res).results with _ | ⟨x, xs⟩
      · simp
      · simp [List.getLastD, List.getLast?_cons_cons]

lemma ota_update_loop_dropLast (envs : Nat → AttemptEnv) :
    ∀ (fuel : Nat) (st : OtaThreadData) (i : Nat) (prev : EdgehogResult),
      ∀ r ∈ (ota_update_loop envs st i fuel prev).results.dropLast,
        is_terminal_result r = false := by
  intro fuel
  induction fuel with
  | zero => intro st i prev; simp [ota_update_loop]
  | succ f ih =>
    intro st i prev
    show ∀ r ∈ (ota_update_loop envs st i (f + 1) prev).results.dropLast, _
    unfold ota_update_loop
    dsimp only
    split_ifs with h
    · simp
    · intro r hr
      rcases hrest : (ota_update_loop envs (perform_ota_attempt st (envs i)).st
          (i + 1) f (perform_ota_attempt st (envs i)).res).results with _ | ⟨x, xs⟩
      · rw [hrest] at hr
        simp at hr
      · rw [hrest] at hr
        rw [List.dropLast_cons_of_ne_nil (by simp)] at hr
        rcases List.mem_cons.mp hr with hr1 | hr2
        · subst hr1
          push_neg at h
          simp [is_terminal_result, h.1, h.2]
        · have := ih (perform_ota_attempt st (envs i)).st (i + 1)
            (perform_ota_attempt st (envs i)).res r
          rw [hrest] at this
          exact this hr2

lemma ota_update_loop_early_terminal (envs : Nat → AttemptEnv) :
    ∀ (fuel : Nat) (st : OtaThreadData) (i : Nat) (prev : EdgehogResult),
      (ota_update_loop envs st i fuel prev).results.length < fuel →
      ∀ r, (ota_update_loop envs st i fuel prev).results.getLast? = some r →
        is_terminal_result r = true := by
  intro fuel
  induction fuel with
  | zero => intro st i prev h; omega
  | succ f ih =>
    intro st i prev
    show (ota_update_loop envs st i (f + 1) prev).results.length < f + 1 → _
    unfold ota_update_loop
    dsimp only
    split_ifs with h
    · intro _ r hr
      simp only [List.getLast?_singleton, Option.some_inj] at hr
      subst hr
      simp [is_terminal_result]
      tauto
    · intro hlen r hr
      simp only [List.length_cons] at hlen
      have hlt : (ota_update_loop envs (perform_ota_attempt st (envs i)).st
          (i + 1) f (perform_ota_attempt st (envs i)).res).results.length < f := by omega
      have hne := ota_update_loop_results_nonempty envs f
        (perform_ota_attempt st (envs i)).st (i + 1)
        (perform_ota_attempt st (envs i)).res (by omega)
      rcases hrest : (ota_update_loop envs (perform_ota_attempt st (envs i)).st
          (i + 1) f (perform_ota_attempt st (envs i)).res).results with _ | ⟨x, xs⟩
      · exact absurd hrest hne
      · simp only [hrest, List.getLast?_cons_cons] at hr
        have := ih _ (i + 1) (perform_ota_attempt st (envs i)).res hlt r
        rw [hrest] at this
        exact this hr

lemma ota_update_loop_filter_retry (envs : Nat → AttemptEnv) :
    ∀ (fuel : Nat) (st : OtaThreadData) (i : Nat) (prev : EdgehogResult),
      (ota_update_loop envs st i fuel prev).tr.filter is_retry_action
        = retry_trace st.uuid i
            ((ota_update_loop envs st i fuel prev).results.filter
              fun r => !(is_terminal_result r)) := by
  intro fuel
  induction fuel with
  | zero => intro st i prev; simp [ota_update_loop, retry_trace]
  | succ f ih =>
    intro st i prev
    show (ota_update_loop envs st i (f + 1) prev).tr.filter is_retry_action = _
    unfold ota_update_loop
    dsimp only
    have hhead : is_retry_action
        (pub_ota_event st.uuid OtaEvent.downloading 0 EdgehogResult.ok "") = false := by
      simp [is_retry_action, pub_ota_event, ota_status_string]
    have herr : is_retry_action
        (pub_ota_event (perform_ota_attempt st (envs i)).st.uuid OtaEvent.error 0
          (perform_ota_attempt st (envs i)).res "") = true := by
      simp [is_retry_action, pub_ota_event, ota_status_string]
    split_ifs with h
    · have hterm : is_terminal_result (perform_ota_attempt st (envs i)).res = true := by
        simp [is_terminal_result]
        tauto
      simp [List.filter_cons, hhead, hterm, retry_trace, attempt_filter_retry]
    · push_neg at h
      have hterm : is_terminal_result (perform_ota_attempt st (envs i)).res = false := by
        simp [is_terminal_result, h.1, h.2]
      have hfilter := attempt_filter_retry st (envs i)
      have hihr := ih (perform_ota_attempt st (envs i)).st (i + 1)
        (perform_ota_attempt st (envs i)).res
      simp only [List.filter_cons, List.filter_append, hhead, hterm, hfilter, herr,
        Bool.false_eq_true, if_false, List.nil_append, Bool.not_false, if_true,
        retry_trace, hihr]
      rw [perform_ota_attempt_uuid]
      simp [Action.sleepMs.injEq, is_retry_action]

lemma ota_update_loop_actions (envs : Nat → AttemptEnv) :
    ∀ (fuel : Nat) (st : OtaThreadData) (i : Nat) (prev : EdgehogResult),
      ∀ a ∈ (ota_update_loop envs st i fuel prev).tr, is_attempt_loop_action a = true := by
  intro fuel
  induction fuel with
  | zero => intro st i prev; simp [ota_update_loop]
  | succ f ih =>
    intro st i prev a
    show a ∈ (ota_update_loop envs st i (f + 1) prev).tr → _
    unfold ota_update_loop
    dsimp only
    have hhead : is_attempt_loop_action
        (pub_ota_event st.uuid OtaEvent.downloading 0 EdgehogResult.ok "") = true := by
      simp [is_attempt_loop_action, pub_ota_event, ota_status_string]
    have hatt : ∀ b ∈ (perform_ota_attempt st (envs i)).tr, is_attempt_loop_action b = true := by
      intro b hb
      rw [perform_ota_attempt_tr] at hb
      exact sink_action_is_loop_action b (run_download_actions (envs i).steps st b hb)
    split_ifs with h
    · intro ha
      rcases List.mem_cons.mp ha with ha1 | ha2
      · subst ha1; exact hhead
      · exact hatt a ha2
    · intro ha
      rcases List.mem_cons.mp ha with ha1 | ha2
      · subst ha1; exact hhead
      rcases List.mem_append.mp ha2 with ha3 | ha4
      · exact hatt a ha3
      rcases List.mem_cons.mp ha4 with ha5 | ha6
      · subst ha5; simp [is_attempt_loop_action]
      rcases List.mem_cons.mp ha6 with ha7 | ha8
      · subst ha7; simp [is_attempt_loop_action, pub_ota_event, ota_status_string]
      · exact ih _ (i + 1) _ a ha8

lemma perform_ota_actions (st : OtaThreadData) (env : PerformEnv) :
    ∀ a ∈ (perform_ota st env).tr, is_perform_action a = true := by
  unfold perform_ota
  split_ifs with h1 h2 h3 <;> intro a ha
  · simp only [List.mem_singleton] at ha; subst ha; rfl
  · simp only [List.mem_cons, List.mem_singleton, List.not_mem_nil, or_false] at ha
    rcases ha with rfl | rfl <;> rfl
  · dsimp only at ha
    simp only [List.mem_cons, List.not_mem_nil, or_false] at ha
    rcases ha with rfl | rfl | rfl <;> rfl
  · dsimp only at ha
    rcases List.mem_append.mp ha with hpre | hloop
    · simp only [List.mem_cons, List.not_mem_nil, or_false] at hpre
      rcases hpre with rfl | rfl | rfl <;> rfl
    · have := ota_update_loop_actions env.attempts MAX_OTA_RETRY
        { st with flashBytes := 0 } 0 env.saveReqIdResult a hloop
      cases a <;> simp_all [is_perform_action]

lemma perform_action_excludes (a : Action) (h : is_perform_action a = true) :
    a ≠ Action.readBankHeader ∧ a ≠ Action.requestUpgrade ∧
      ∀ v : Nat, a ≠ Action.settingsSaveState v := by
  cases a <;> simp_all [is_perform_action, is_attempt_loop_action]

lemma http_cbk_cancelled (st : OtaThreadData) (cs : ChunkStep) (h : st.runBit = false) :
    http_download_payload_cbk st cs
      = { st := st, tr := [Action.abortSocket], res := EdgehogResult.ok } := by
  unfold http_download_payload_cbk
  by_cases hc : cs.cancelBefore = true <;> simp only [hc, ite_true, ite_false]
  · have hid : ({ st with runBit := false } : OtaThreadData) = st := by
      cases st
      simp_all
    simp [hid]
  · simp [h]

lemma perform_ota_eq (st : OtaThreadData) (env : PerformEnv)
    (h1 : env.eraseOk = true) (h2 : env.flashInitOk = true)
    (h3 : env.saveReqIdResult = EdgehogResult.ok) :
    perform_ota st env
      = { st := (ota_update_loop env.attempts { st with flashBytes := 0 } 0 MAX_OTA_RETRY
            EdgehogResult.ok).st
          tr := Action.eraseSecondary :: Action.flashInit :: Action.settingsSaveReqId st.uuid
            :: (ota_update_loop env.attempts { st with flashBytes := 0 } 0 MAX_OTA_RETRY
              EdgehogResult.ok).tr
          res := (ota_update_loop env.attempts { st with flashBytes := 0 } 0 MAX_OTA_RETRY
            EdgehogResult.ok).res
          results := (ota_update_loop env.attempts { st with flashBytes := 0 } 0 MAX_OTA_RETRY
            EdgehogResult.ok).results } := by
  unfold perform_ota
  rw [if_neg (by simp [h1]), if_neg (by simp [h2])]
  dsimp only
  rw [if_neg (by simp [h3]), h3]
  rfl

lemma thread_failure_event (st : OtaThreadData) (env : ThreadEnv)
    (hinit : env.settingsInitOk = true)
    (hres : (perform_ota st env.perform).res ≠ EdgehogResult.ok) :
    pub_ota_event st.uuid OtaEvent.failure 0 (perform_ota st env.perform).res ""
      ∈ ota_thread_entry_point st env := by
  unfold ota_thread_entry_point
  rw [if_neg (by simp [hinit])]
  dsimp only
  rw [if_neg hres]
  simp

/-- **C1** counterexample.  The claim states that every preparation failure
after admission emits a `Failure / InternalError` event and leaves the run
bit clear.  In the code, an out-of-memory failure while duplicating the
request strings jumps to `fail:` without publishing any event, and a
worker-thread creation failure publishes the event but leaves the run bit
set (the `fail:` label never clears it). -/
theorem claim_C1_counterexample :
    (edgehog_ota_event_update "u" "x"
        { runBit := false, callocUuidOk := false, callocUrlOk := true,
          threadCreateOk := true }).tr = [] ∧
      (edgehog_ota_event_update "u" "x"
          { runBit := false, callocUuidOk := true, callocUrlOk := true,
            threadCreateOk := false }).runBit = true := by
  constructor <;> rfl

/-- **C1** (amended).  For an Update admitted with the run bit clear: an
out-of-memory failure while duplicating the request strings returns
`OUT_OF_MEMORY` with no event published and the run bit still clear (it was
never set); a worker-thread creation failure publishes
`Failure / InternalError` but returns with the run bit set, so a subsequent
Update command is rejected with `UpdateAlreadyInProgress` instead of being
admitted. -/
theorem claim_C1_preparation_failures (uuid url : String) (env : UpdateEnv)
    (hrun : env.runBit = false) :
    ((env.callocUuidOk = false ∨ env.callocUrlOk = false) →
      edgehog_ota_event_update uuid url env
        = { res := EdgehogResult.outOfMemory, runBit := false, tr := [] }) ∧
      (env.callocUuidOk = true → env.callocUrlOk = true → env.threadCreateOk = false →
        edgehog_ota_event_update uuid url env
            = { res := EdgehogResult.threadCreateError, runBit := true,
                tr := [pub_ota_event uuid OtaEvent.failure 0
                  EdgehogResult.otaInternalError ""] } ∧
          ∀ (uuid2 url2 : String) (env2 : UpdateEnv), env2.runBit = true →
            (edgehog_ota_event_update uuid2 url2 env2).res
              = EdgehogResult.otaAlreadyInProgress) := by
  constructor
  · rintro (hc | hc)
    · simp [edgehog_ota_event_update, hrun, hc]
    · cases hu : env.callocUuidOk
      · simp [edgehog_ota_event_update, hrun, hu]
      · simp [edgehog_ota_event_update, hrun, hu, hc]
  · intro h1 h2 h3
    refine ⟨by simp [edgehog_ota_event_update, hrun, h1, h2, h3], ?_⟩
    intro uuid2 url2 env2 hr2
    simp [edgehog_ota_event_update, hr2]

/-- **C1** witness: the amended theorem applied to a concrete failed uuid
allocation and to a concrete failed thread creation. -/
theorem claim_C1_witness :
    edgehog_ota_event_update "u" "x"
        { runBit := false, callocUuidOk := false, callocUrlOk := true, threadCreateOk := true }
      = { res := EdgehogResult.outOfMemory, runBit := false, tr := [] } ∧
      (edgehog_ota_event_update "u" "x"
          { runBit := false, callocUuidOk := true, callocUrlOk := true, threadCreateOk := false }
        = { res := EdgehogResult.threadCreateError, runBit := true,
            tr := [pub_ota_event "u" OtaEvent.failure 0 EdgehogResult.otaInternalError ""] }) :=
  ⟨(claim_C1_preparation_failures "u" "x" _ rfl).1 (Or.inl rfl),
    ((claim_C1_preparation_failures "u" "x" _ rfl).2 rfl rfl rfl).1⟩

/-- **C6**: boot-time reconciliation with a 36-character `req_id`,
`state = REBOOT`, swap type NONE, an unconfirmed image and a successful
`boot_write_img_confirmed` publishes a `Success` event for the loaded
uuid and then clears the record: it deletes `req_id` and persists
`state = IDLE`. -/
theorem claim_C6_reconcile_success (env : InitEnv) (s : OtaSettings)
    (hdev : env.devNull = false) (hload : env.loadResult = Option.some s)
    (hlen : s.uuid.length = ASTARTE_UUID_STR_LEN)
    (hstate : s.ota_state = OTA_STATE_REBOOT)
    (hswap : env.swapTypeIsNone = true) (hconf : env.imgConfirmed = false)
    (hwrite : 0 ≤ env.writeConfirmedRet) :
    edgehog_ota_init env
      = [pub_ota_event s.uuid OtaEvent.success 0 EdgehogResult.ok "",
         Action.settingsDeleteReqId, Action.settingsSaveState OTA_STATE_IDLE] := by
  unfold edgehog_ota_init
  rw [if_neg (by simp [hdev]), hload]
  dsimp only
  rw [if_neg (by simp [hlen]), if_neg (by simp [hstate]), if_neg (by simp [hswap]),
    if_neg (by simp [hconf]), if_neg (by omega)]

/-- **C6** witness: a concrete reconciliation run satisfying all the
hypotheses. -/
theorem claim_C6_witness :
    edgehog_ota_init
        { devNull := false
          loadResult := Option.some
            { uuid := "123e4567-e89b-12d3-a456-426614174000", ota_state := 3 }
          swapTypeIsNone := true, imgConfirmed := false, writeConfirmedRet := 0 }
      = [pub_ota_event "123e4567-e89b-12d3-a456-426614174000" OtaEvent.success 0
          EdgehogResult.ok "",
         Action.settingsDeleteReqId, Action.settingsSaveState OTA_STATE_IDLE] :=
  claim_C6_reconcile_success _ _ rfl rfl (by decide) rfl rfl rfl (by decide)

/-- **C9**: whenever the boot-time reconciler is invoked with a non-null
device and the settings load succeeds, the persisted record is cleared on
every branch — the trace ends with deleting `req_id` and persisting
`state = IDLE` — including the branch where no 36-character `req_id` was
found; a failed settings load returns without touching the record. -/
theorem claim_C9_reconcile_always_clears (env : InitEnv) (hdev : env.devNull = false) :
    (∀ s : OtaSettings, env.loadResult = Option.some s →
      ∃ pre, edgehog_ota_init env
        = pre ++ [Action.settingsDeleteReqId, Action.settingsSaveState OTA_STATE_IDLE]) ∧
      (env.loadResult = Option.none → edgehog_ota_init env = []) := by
  constructor
  · intro s hload
    unfold edgehog_ota_init
    rw [if_neg (by simp [hdev]), hload]
    dsimp only
    split_ifs
    · exact ⟨[], rfl⟩
    · exact ⟨[pub_ota_event s.uuid OtaEvent.failure 0 EdgehogResult.otaInternalError ""], rfl⟩
    · exact ⟨[pub_ota_event s.uuid OtaEvent.failure 0 EdgehogResult.otaSwapFail ""], rfl⟩
    · exact ⟨[pub_ota_event s.uuid OtaEvent.failure 0 EdgehogResult.otaSwapFail ""], rfl⟩
    · exact ⟨[pub_ota_event s.uuid OtaEvent.failure 0 EdgehogResult.otaInternalError ""], rfl⟩
    · exact ⟨[pub_ota_event s.uuid OtaEvent.success 0 EdgehogResult.ok ""], rfl⟩
  · intro hload
    unfold edgehog_ota_init
    rw [if_neg (by simp [hdev]), hload]

/-- **C9** witness: a concrete reconciliation whose loaded record has no
36-character uuid still clears the record on return. -/
theorem claim_C9_witness :
    ∃ pre, edgehog_ota_init
        { devNull := false, loadResult := Option.some { uuid := "", ota_state := 1 }
          swapTypeIsNone := true, imgConfirmed := false, writeConfirmedRet := 0 }
      = pre ++ [Action.settingsDeleteReqId, Action.settingsSaveState OTA_STATE_IDLE] :=
  (claim_C9_reconcile_always_clears _ rfl).1 _ rfl

/-- **C10**: whenever the run bit is observed cleared by the HTTP sink, the
callback aborts the socket and returns OK with the worker state untouched —
no flash write, no `image_size` / `download_size` / `last_perc_sent` update
and no event — and the same holds for every later chunk of the transfer:
the whole remaining download records only socket aborts and leaves the
state unchanged. -/
theorem claim_C10_cancelled_sink (st : OtaThreadData) (steps : List ChunkStep)
    (h : st.runBit = false) :
    (∀ cs : ChunkStep, http_download_payload_cbk st cs
      = { st := st, tr := [Action.abortSocket], res := EdgehogResult.ok }) ∧
      run_download st steps
        = { st := st, tr := List.replicate steps.length Action.abortSocket } :=
  ⟨fun cs => http_cbk_cancelled st cs h, run_download_cancelled steps st h⟩

/-- **C10** witness: a concrete cancelled transfer of two chunks. -/
theorem claim_C10_witness :
    run_download
        { runBit := false, flashBytes := 0, imageSize := 0, downloadSize := 0,
          lastPercSent := 0, uuid := "u" }
        [plain_chunk_step 4 8, plain_chunk_step 4 8]
      = { st := { runBit := false, flashBytes := 0, imageSize := 0, downloadSize := 0,
                  lastPercSent := 0, uuid := "u" },
          tr := [Action.abortSocket, Action.abortSocket] } :=
  (claim_C10_cancelled_sink _ [plain_chunk_step 4 8, plain_chunk_step 4 8] rfl).2

/-- **C4**: after the downloader returns, the attempt result is decided in
source order on the post-download state: a cleared run bit yields
`OTA_CANCELED` regardless of the downloader result; otherwise a failing
downloader result is returned as is; otherwise zero or mismatched
`bytes_written` yields `NETWORK_ERROR`; otherwise the attempt returns OK,
and an OK attempt makes the retry loop stop with that single result. -/
theorem claim_C4_attempt_decision (st : OtaThreadData) (env : AttemptEnv) :
    ((attempt_post_state st env).runBit = false →
      (perform_ota_attempt st env).res = EdgehogResult.otaCanceled) ∧
      ((attempt_post_state st env).runBit = true → env.httpResult ≠ EdgehogResult.ok →
        (perform_ota_attempt st env).res = env.httpResult) ∧
      ((attempt_post_state st env).runBit = true → env.httpResult = EdgehogResult.ok →
        ((attempt_post_state st env).flashBytes = 0 ∨
            (attempt_post_state st env).flashBytes ≠ (attempt_post_state st env).imageSize) →
          (perform_ota_attempt st env).res = EdgehogResult.networkError) ∧
      ((attempt_post_state st env).runBit = true → env.httpResult = EdgehogResult.ok →
        (attempt_post_state st env).flashBytes ≠ 0 →
        (attempt_post_state st env).flashBytes = (attempt_post_state st env).imageSize →
          (perform_ota_attempt st env).res = EdgehogResult.ok) ∧
      (∀ (envs : Nat → AttemptEnv) (st2 : OtaThreadData) (i fuel : Nat) (prev : EdgehogResult),
        (perform_ota_attempt st2 (envs i)).res = EdgehogResult.ok →
          (ota_update_loop envs st2 i (fuel + 1) prev).results = [EdgehogResult.ok]) := by
  refine ⟨?_, ?_, ?_, ?_, ?_⟩
  · intro hb
    unfold perform_ota_attempt
    dsimp only
    rw [if_pos hb]
  · intro hb hr
    unfold perform_ota_attempt
    dsimp only
    rw [if_neg (by simp [hb]), if_pos hr]
  · intro hb hr hsz
    unfold perform_ota_attempt
    dsimp only
    rw [if_neg (by simp [hb]), if_neg (by simp [hr]), if_pos hsz]
  · intro hb hr h0 hsz
    unfold perform_ota_attempt
    dsimp only
    rw [if_neg (by simp [hb]), if_neg (by simp [hr]), if_neg (by omega)]
  · intro envs st2 i fuel prev hok
    show (ota_update_loop envs st2 i (fuel + 1) prev).results = _
    unfold ota_update_loop
    dsimp only
    rw [if_pos (Or.inl hok), hok]

/-- **C4** witness: a one-chunk download of a 4-byte image with matching
sizes returns OK, and the loop stops with that single result. -/
theorem claim_C4_witness :
    (perform_ota_attempt fresh_worker_state small_ok_attempt).res = EdgehogResult.ok ∧
      (ota_update_loop (fun _ => small_ok_attempt) fresh_worker_state 0 MAX_OTA_RETRY
          EdgehogResult.ok).results = [EdgehogResult.ok] :=
  ⟨(claim_C4_attempt_decision fresh_worker_state small_ok_attempt).2.2.2.1
      (by decide) rfl (by decide) (by decide),
    (claim_C4_attempt_decision fresh_worker_state small_ok_attempt).2.2.2.2
      (fun _ => small_ok_attempt) fresh_worker_state 0 4 EdgehogResult.ok
      ((claim_C4_attempt_decision fresh_worker_state small_ok_attempt).2.2.2.1
        (by decide) rfl (by decide) (by decide))⟩

/-- **C8**: a Cancel received while the run bit is set, with settings
init and load succeeding and a 36-character loaded `req_id`, clears the
run bit and returns OK for any request uuid (the handler never compares it
with the in-flight uuid); a worker that then observes the cleared bit
finishes its attempt with `OTA_CANCELED`, and a worker whose update loop
result is `OTA_CANCELED` publishes the terminal
`Failure` event with statusCode `Canceled`. -/
theorem claim_C8_cancel_any_uuid (request_uuid : String) (env : CancelEnv) (s : OtaSettings)
    (hrun : env.runBit = true) (hinit : env.settingsInitOk = true)
    (hload : env.loadResult = Option.some s)
    (hlen : s.uuid.length = ASTARTE_UUID_STR_LEN) :
    (edgehog_ota_event_cancel request_uuid env).res = EdgehogResult.ok ∧
      (edgehog_ota_event_cancel request_uuid env).runBit = false ∧
      (∀ (st : OtaThreadData) (aenv : AttemptEnv), st.runBit = false →
        (perform_ota_attempt st aenv).res = EdgehogResult.otaCanceled) ∧
      (∀ (st : OtaThreadData) (tenv : ThreadEnv), tenv.settingsInitOk = true →
        (perform_ota st tenv.perform).res = EdgehogResult.otaCanceled →
          Action.pubEvent st.uuid "Failure" 0 "Canceled" ""
            ∈ ota_thread_entry_point st tenv) := by
  have hcancel : edgehog_ota_event_cancel request_uuid env
      = { res := EdgehogResult.ok, runBit := false, tr := [] } := by
    unfold edgehog_ota_event_cancel
    rw [if_neg (by simp [hrun]), if_neg (by simp [hinit]), hload]
    dsimp only
    rw [if_neg (by simp [hlen])]
  refine ⟨by rw [hcancel], by rw [hcancel], ?_, ?_⟩
  · intro st aenv hbit
    exact perform_ota_attempt_canceled st aenv hbit
  · intro st tenv htinit hres
    have hne : (perform_ota st tenv.perform).res ≠ EdgehogResult.ok := by
      rw [hres]
      intro hcontra
      exact EdgehogResult.noConfusion hcontra
    have hmem := thread_failure_event st tenv htinit hne
    rw [hres] at hmem
    exact hmem

/-- **C8** witness: a concrete Cancel whose uuid differs from the loaded
in-flight uuid still clears the run bit and returns OK. -/
theorem claim_C8_witness :
    (edgehog_ota_event_cancel "not-the-in-flight-uuid"
        { runBit := true, settingsInitOk := true
          loadResult := Option.some
            { uuid := "123e4567-e89b-12d3-a456-426614174000", ota_state := 2 } }).res
        = EdgehogResult.ok ∧
      (edgehog_ota_event_cancel "not-the-in-flight-uuid"
          { runBit := true, settingsInitOk := true
            loadResult := Option.some
              { uuid := "123e4567-e89b-12d3-a456-426614174000", ota_state := 2 } }).runBit
        = false :=
  ⟨(claim_C8_cancel_any_uuid "not-the-in-flight-uuid" _ _ rfl rfl rfl (by decide)).1,
    (claim_C8_cancel_any_uuid "not-the-in-flight-uuid" _ _ rfl rfl rfl (by decide)).2.1⟩

/-- **C2** counterexample.  The claim states that every iteration of the
attempt loop calls `erase_secondary()` and `init(flash_ctx)` before its
download.  In a run of `perform_ota` where the first attempt fails and the
second succeeds — two loop iterations — the trace contains exactly one
`boot_erase_img_bank` call and one `flash_img_init` call: both happen once,
before the loop, so the second iteration performs neither. -/
theorem claim_C2_counterexample :
    (perform_ota fresh_worker_state two_attempt_env).results.length = 2 ∧
      (perform_ota fresh_worker_state two_attempt_env).tr.count Action.eraseSecondary = 1 ∧
      (perform_ota fresh_worker_state two_attempt_env).tr.count Action.flashInit = 1 := by
  refine ⟨by decide, by decide, by decide⟩

/-- **C2** (amended).  `perform_ota` calls `erase_secondary()` and then
`init(flash_ctx)` exactly once, before the attempt loop, not in every
iteration: an erase failure returns `ERASE_SECOND_SLOT_ERROR` and an init
failure returns `INIT_FLASH_ERROR`, both before any download attempt; when
both succeed the whole trace starts with the two calls and contains no
further occurrence of either. -/
theorem claim_C2_erase_init_once_before_loop (st : OtaThreadData) (env : PerformEnv) :
    (env.eraseOk = false →
      perform_ota st env
        = { st := st, tr := [Action.eraseSecondary],
            res := EdgehogResult.otaEraseSecondSlotError, results := [] }) ∧
      (env.eraseOk = true → env.flashInitOk = false →
        perform_ota st env
          = { st := st, tr := [Action.eraseSecondary, Action.flashInit],
              res := EdgehogResult.otaInitFlashError, results := [] }) ∧
      (env.eraseOk = true → env.flashInitOk = true →
        (perform_ota st env).tr.count Action.eraseSecondary = 1 ∧
          (perform_ota st env).tr.count Action.flashInit = 1 ∧
          ∃ rest, (perform_ota st env).tr
            = Action.eraseSecondary :: Action.flashInit :: rest) := by
  refine ⟨?_, ?_, ?_⟩
  · intro h
    unfold perform_ota
    rw [if_pos (by simp [h])]
  · intro h1 h2
    unfold perform_ota
    rw [if_neg (by simp [h1]), if_pos (by simp [h2])]
  · intro h1 h2
    by_cases h3 : env.saveReqIdResult = EdgehogResult.ok
    · rw [perform_ota_eq st env h1 h2 h3]
      dsimp only
      have her : Action.eraseSecondary ∉ (ota_update_loop env.attempts
          { st with flashBytes := 0 } 0 MAX_OTA_RETRY EdgehogResult.ok).tr := by
        intro hm
        have := ota_update_loop_actions env.attempts MAX_OTA_RETRY
          { st with flashBytes := 0 } 0 EdgehogResult.ok _ hm
        simp [is_attempt_loop_action] at this
      have hfi : Action.flashInit ∉ (ota_update_loop env.attempts
          { st with flashBytes := 0 } 0 MAX_OTA_RETRY EdgehogResult.ok).tr := by
        intro hm
        have := ota_update_loop_actions env.attempts MAX_OTA_RETRY
          { st with flashBytes := 0 } 0 EdgehogResult.ok _ hm
        simp [is_attempt_loop_action] at this
      refine ⟨?_, ?_, ⟨Action.settingsSaveReqId st.uuid :: (ota_update_loop env.attempts
        { st with flashBytes := 0 } 0 MAX_OTA_RETRY EdgehogResult.ok).tr, rfl⟩⟩
      · simp [List.count_cons, List.count_eq_zero.mpr her]
      · simp [List.count_cons, List.count_eq_zero.mpr hfi]
    · unfold perform_ota
      rw [if_neg (by simp [h1]), if_neg (by simp [h2])]
      dsimp only
      rw [if_pos h3]
      exact ⟨by simp [List.count_cons], by simp [List.count_cons],
        ⟨[Action.settingsSaveReqId st.uuid], rfl⟩⟩

/-- **C2** witness: the amended theorem applied to a concrete environment
for each of its three branches. -/
theorem claim_C2_witness :
    perform_ota fresh_worker_state
        { eraseOk := false, flashInitOk := true, saveReqIdResult := EdgehogResult.ok,
          attempts := fun _ => small_ok_attempt }
        = { st := fresh_worker_state, tr := [Action.eraseSecondary],
            res := EdgehogResult.otaEraseSecondSlotError, results := [] } ∧
      perform_ota fresh_worker_state
          { eraseOk := true, flashInitOk := false, saveReqIdResult := EdgehogResult.ok,
            attempts := fun _ => small_ok_attempt }
          = { st := fresh_worker_state, tr := [Action.eraseSecondary, Action.flashInit],
              res := EdgehogResult.otaInitFlashError, results := [] } ∧
      (perform_ota fresh_worker_state two_attempt_env).tr.count Action.eraseSecondary = 1 :=
  ⟨(claim_C2_erase_init_once_before_loop fresh_worker_state _).1 rfl,
    (claim_C2_erase_init_once_before_loop fresh_worker_state _).2.1 rfl rfl,
    ((claim_C2_erase_init_once_before_loop fresh_worker_state two_attempt_env).2.2
      rfl rfl).1⟩

/-- **C5**: when settings init succeeds and the attempt loop returns OK,
the worker trace writes `state = REBOOT` to settings strictly before
reading the secondary bank header and strictly before issuing
`boot_request_upgrade(BOOT_UPGRADE_TEST)`: the trace splits around the
REBOOT save, with neither bootloader call before it and the header read
right after it. -/
theorem claim_C5_reboot_persisted_first (st : OtaThreadData) (env : ThreadEnv)
    (hinit : env.settingsInitOk = true)
    (hok : (perform_ota st env.perform).res = EdgehogResult.ok) :
    ∃ l1 l2,
      ota_thread_entry_point st env
          = l1 ++ Action.settingsSaveState OTA_STATE_REBOOT :: l2 ∧
        Action.readBankHeader ∉ l1 ∧ Action.requestUpgrade ∉ l1 ∧
        Action.readBankHeader ∈ l2 := by
  have hperf := perform_ota_actions st env.perform
  have hnh : Action.readBankHeader ∉
      ([pub_ota_event st.uuid OtaEvent.acknowledged 0 EdgehogResult.ok "",
        Action.settingsSaveState OTA_STATE_IN_PROGRESS] ++ (perform_ota st env.perform).tr
        ++ [pub_ota_event st.uuid OtaEvent.deploying 0 EdgehogResult.ok ""]) := by
    intro hm
    rcases List.mem_append.mp hm with hm1 | hm2
    · rcases List.mem_append.mp hm1 with hm3 | hm4
      · simp [pub_ota_event] at hm3
      · exact (perform_action_excludes _ (hperf _ hm4)).1 rfl
    · simp [pub_ota_event] at hm2
  have hnu : Action.requestUpgrade ∉
      ([pub_ota_event st.uuid OtaEvent.acknowledged 0 EdgehogResult.ok "",
        Action.settingsSaveState OTA_STATE_IN_PROGRESS] ++ (perform_ota st env.perform).tr
        ++ [pub_ota_event st.uuid OtaEvent.deploying 0 EdgehogResult.ok ""]) := by
    intro hm
    rcases List.mem_append.mp hm with hm1 | hm2
    · rcases List.mem_append.mp hm1 with hm3 | hm4
      · simp [pub_ota_event] at hm3
      · exact (perform_action_excludes _ (hperf _ hm4)).2.1 rfl
    · simp [pub_ota_event] at hm2
  unfold ota_thread_entry_point
  rw [if_neg (by simp [hinit])]
  dsimp only
  rw [if_pos hok]
  split_ifs with hrh hru
  · refine ⟨[pub_ota_event st.uuid OtaEvent.acknowledged 0 EdgehogResult.ok "",
        Action.settingsSaveState OTA_STATE_IN_PROGRESS] ++ (perform_ota st env.perform).tr
        ++ [pub_ota_event st.uuid OtaEvent.deploying 0 EdgehogResult.ok ""],
      Action.readBankHeader
        :: pub_ota_event st.uuid OtaEvent.failure 0 EdgehogResult.otaInternalError ""
        :: ota_selfdestruct_actions,
      ?_, hnh, hnu, List.mem_cons_self _ _⟩
    simp
  · refine ⟨[pub_ota_event st.uuid OtaEvent.acknowledged 0 EdgehogResult.ok "",
        Action.settingsSaveState OTA_STATE_IN_PROGRESS] ++ (perform_ota st env.perform).tr
        ++ [pub_ota_event st.uuid OtaEvent.deploying 0 EdgehogResult.ok ""],
      Action.readBankHeader :: Action.requestUpgrade
        :: pub_ota_event st.uuid OtaEvent.failure 0 EdgehogResult.otaInternalError ""
        :: ota_selfdestruct_actions,
      ?_, hnh, hnu, List.mem_cons_self _ _⟩
    simp
  · refine ⟨[pub_ota_event st.uuid OtaEvent.acknowledged 0 EdgehogResult.ok "",
        Action.settingsSaveState OTA_STATE_IN_PROGRESS] ++ (perform_ota st env.perform).tr
        ++ [pub_ota_event st.uuid OtaEvent.deploying 0 EdgehogResult.ok ""],
      Action.readBankHeader :: Action.requestUpgrade
        :: pub_ota_event st.uuid OtaEvent.deployed 0 EdgehogResult.ok ""
        :: pub_ota_event st.uuid OtaEvent.rebooting 0 EdgehogResult.ok ""
        :: Action.sleepMs 5000 :: [Action.rebootWarm],
      ?_, hnh, hnu, List.mem_cons_self _ _⟩
    simp

/-- **C5** witness: a concrete successful update run. -/
theorem claim_C5_witness :
    ∃ l1 l2,
      ota_thread_entry_point fresh_worker_state
          { settingsInitOk := true
            perform := { eraseOk := true, flashInitOk := true,
                         saveReqIdResult := EdgehogResult.ok,
                         attempts := fun _ => small_ok_attempt }
            readHeaderOk := true, requestUpgradeOk := true }
          = l1 ++ Action.settingsSaveState OTA_STATE_REBOOT :: l2 ∧
        Action.readBankHeader ∉ l1 ∧ Action.requestUpgrade ∉ l1 ∧
        Action.readBankHeader ∈ l2 :=
  claim_C5_reboot_persisted_first fresh_worker_state _ rfl (by decide)

/-- **C7**: once the one-time erase, flash init and `req_id` save succeed,
the attempt loop runs at most `MAX_OTA_RETRY = 5` attempts and at least
one; every attempt before the last fails with a non-terminal result; the
retry actions of the trace are exactly, in order, a sleep of
`attempt_index * 2000 ms` followed by an `Error` event carrying that
attempt's status code for each non-terminal attempt result (so an OK or
cancelled attempt produces neither); the loop result is the last attempt's
result; the loop stops early only on OK or `OTA_CANCELED`; and a worker
whose loop result is not OK publishes the terminal `Failure` event carrying
that result's status code. -/
theorem claim_C7_retry_policy (st : OtaThreadData) (env : PerformEnv)
    (h1 : env.eraseOk = true) (h2 : env.flashInitOk = true)
    (h3 : env.saveReqIdResult = EdgehogResult.ok) :
    (perform_ota st env).results.length ≤ MAX_OTA_RETRY ∧
      (perform_ota st env).results ≠ [] ∧
      (∀ r ∈ (perform_ota st env).results.dropLast, is_terminal_result r = false) ∧
      (perform_ota st env).tr.filter is_retry_action
          = retry_trace st.uuid 0
              ((perform_ota st env).results.filter fun r => !(is_terminal_result r)) ∧
      (perform_ota st env).res = (perform_ota st env).results.getLastD EdgehogResult.ok ∧
      ((perform_ota st env).results.length < MAX_OTA_RETRY →
        ∀ r, (perform_ota st env).results.getLast? = some r →
          is_terminal_result r = true) ∧
      (∀ env2 : ThreadEnv, env2.settingsInitOk = true → env2.perform = env →
        (perform_ota st env).res ≠ EdgehogResult.ok →
          pub_ota_event st.uuid OtaEvent.failure 0 (perform_ota st env).res ""
            ∈ ota_thread_entry_point st env2) := by
  have hEq := perform_ota_eq st env h1 h2 h3
  refine ⟨?_, ?_, ?_, ?_, ?_, ?_, ?_⟩
  · rw [hEq]
    exact ota_update_loop_results_length env.attempts MAX_OTA_RETRY _ 0 _
  · rw [hEq]
    exact ota_update_loop_results_nonempty env.attempts MAX_OTA_RETRY _ 0 _ (by decide)
  · rw [hEq]
    exact ota_update_loop_dropLast env.attempts MAX_OTA_RETRY _ 0 _
  · rw [hEq]
    dsimp only
    have hfh : is_retry_action Action.eraseSecondary = false := rfl
    simp only [List.filter_cons, hfh, is_retry_action, Bool.false_eq_true, if_false]
    have := ota_update_loop_filter_retry env.attempts MAX_OTA_RETRY
      { st with flashBytes := 0 } 0 EdgehogResult.ok
    simpa using this
  · rw [hEq]
    exact ota_update_loop_res_getLastD env.attempts MAX_OTA_RETRY _ 0 _
  · rw [hEq]
    exact ota_update_loop_early_terminal env.attempts MAX_OTA_RETRY _ 0 _
  · intro env2 hi2 hp2 hres
    have hmem := thread_failure_event st env2 hi2 (by rw [hp2]; exact hres)
    rw [hp2] at hmem
    exact hmem

/-- **C7** witness: in a run whose first attempt fails with a network error
and whose second succeeds, the retry actions are exactly one zero-length
sleep followed by one `Error / ErrorNetwork` event. -/
theorem claim_C7_witness :
    (perform_ota fresh_worker_state two_attempt_env).results.length ≤ MAX_OTA_RETRY ∧
      (perform_ota fresh_worker_state two_attempt_env).tr.filter is_retry_action
        = retry_trace fresh_worker_state.uuid 0
            ((perform_ota fresh_worker_state two_attempt_env).results.filter
              fun r => !(is_terminal_result r)) :=
  ⟨(claim_C7_retry_policy fresh_worker_state two_attempt_env rfl rfl rfl).1,
    (claim_C7_retry_policy fresh_worker_state two_attempt_env rfl rfl rfl).2.2.2.1⟩

/-- **C3** counterexample.  The claim states every `Downloading`
statusProgress lies within [0, 100].  Because `flash_img_init` runs only
once per update, a retry after an interrupted attempt appends the
re-downloaded image to the bytes already counted: with 256 of 1024 bytes
written on attempt one, attempt two reaches 1280 of 1024 bytes and the
sink emits `Downloading` with statusProgress 120. -/
theorem claim_C3_counterexample :
    Action.pubEvent "u" "Downloading" 120 "" ""
        ∈ (perform_ota fresh_worker_state partial_then_full_env).tr ∧ 100 < 120 :=
  ⟨by decide, by decide⟩

/-- **C3** (amended).  For a download attempt whose chunks report one
constant total size `T`, whose delivered bytes sum to at most `T`, and
which starts with `last_perc_sent` consistent with the bytes already in
the flash context (as at the start of every update), the `Downloading`
statusProgress values of the attempt — the progress-0 event of the loop
header followed by the sink's emissions — are all multiples of 10,
monotonically non-decreasing, and at most 11 events are emitted; they all
lie within [0, 100] when the attempt starts with an empty flash context
(in particular on the first attempt), but on a retry after a partial
download they can exceed 100. -/
theorem claim_C3_downloading_progress (st : OtaThreadData) (env : AttemptEnv) (T : Nat)
    (hT : ∀ cs ∈ env.steps, cs.chunk.totalSize = T)
    (hJ : st.lastPercSent = rounded_percent T st.flashBytes)
    (hsum : (env.steps.map fun cs => cs.chunk.chunkSize).sum ≤ T) :
    (∀ v ∈ downloading_values (attempt_trace st env), v % 10 = 0) ∧
      List.Chain' (· ≤ ·) (downloading_values (attempt_trace st env)) ∧
      (downloading_values (attempt_trace st env)).length ≤ 11 ∧
      (st.flashBytes = 0 →
        ∀ v ∈ downloading_values (attempt_trace st env), v ≤ 100) := by
  have hvals : downloading_values (attempt_trace st env)
      = 0 :: downloading_values (run_download st env.steps).tr := by
    unfold attempt_trace
    rw [perform_ota_attempt_tr]
    rfl
  obtain ⟨hJend, hchain, hbound⟩ := run_download_progress T env.steps st hT hJ
  have hb := run_download_bytes_le env.steps st
  have hub : rounded_percent T (run_download st env.steps).st.flashBytes
      ≤ st.lastPercSent + 100 := by
    have s1 : (run_download st env.steps).st.flashBytes ≤ st.flashBytes + T :=
      le_trans hb.2 (Nat.add_le_add_left hsum _)
    have s2 := rounded_percent_mono T s1
    have s3 := rounded_percent_add_total T st.flashBytes
    rw [hJ]
    omega
  have hvback : ∀ v ∈ downloading_values (run_download st env.steps).tr,
      st.lastPercSent < v ∧ v ≤ st.lastPercSent + 100 ∧ v % 10 = 0 := by
    intro v hv
    obtain ⟨hv1, hv2, hv3⟩ := hbound v hv
    exact ⟨hv1, le_trans hv2 hub, hv3⟩
  have hmod0 : st.lastPercSent % 10 = 0 := by
    rw [hJ]
    exact rounded_percent_mod T _
  refine ⟨?_, ?_, ?_, ?_⟩
  · intro v hv
    rw [hvals] at hv
    rcases List.mem_cons.mp hv with rfl | hv2
    · rfl
    · exact (hvback v hv2).2.2
  · rw [hvals]
    refine List.chain'_cons'.mpr ⟨fun y _ => Nat.zero_le y, hchain.imp ?_⟩
    intro a b hab
    exact le_of_lt hab
  · rw [hvals]
    have hnodup : (downloading_values (run_download st env.steps).tr).Nodup :=
      (List.chain'_iff_pairwise.mp hchain).imp fun hab => Nat.ne_of_lt hab
    have hsub : downloading_values (run_download st env.steps).tr
        ⊆ (List.range 10).map fun j => st.lastPercSent + 10 * (j + 1) := by
      intro v hv
      obtain ⟨hv1, hv2, hv3⟩ := hvback v hv
      simp only [List.mem_map, List.mem_range]
      exact ⟨(v - st.lastPercSent) / 10 - 1, by omega, by omega⟩
    have hlen := (List.subperm_of_subset hnodup hsub).length_le
    simp only [List.length_map, List.length_range] at hlen
    simp only [List.length_cons]
    omega
  · intro h0 v hv
    have hz : st.lastPercSent = 0 := by
      rw [hJ, h0]
      simp [rounded_percent]
    rw [hvals] at hv
    rcases List.mem_cons.mp hv with rfl | hv2
    · exact Nat.zero_le 100
    · have := (hvback v hv2).2.1
      omega

/-- **C3** witness: the amended theorem applied to a first attempt that
writes 256 of 1024 bytes, whose emitted values are 0 and 20. -/
theorem claim_C3_witness :
    (∀ v ∈ downloading_values (attempt_trace fresh_worker_state partial_1024_attempt),
      v % 10 = 0) ∧
      List.Chain' (· ≤ ·)
        (downloading_values (attempt_trace fresh_worker_state partial_1024_attempt)) ∧
      (downloading_values (attempt_trace fresh_worker_state partial_1024_attempt)).length
        ≤ 11 ∧
      (fresh_worker_state.flashBytes = 0 →
        ∀ v ∈ downloading_values (attempt_trace fresh_worker_state partial_1024_attempt),
          v ≤ 100) :=
  claim_C3_downloading_progress fresh_worker_state partial_1024_attempt 1024
    (by decide) (by decide) (by decide)

end EdgehogOta
